import Mathlib

/-!
Verification of the PRS log pipeline and its log-browser CLI.

The development shallowly embeds the two Python modules:
* `generate_prs_log.py` — task validation, project-context detection, the
  four-phase assistant pipeline, and the timestamped log writer `save_prs`;
* `prs_memory_cli.py` — `list_logs`, `view_log`, `search_logs` over the
  on-disk convention `.github/prompts/prs_*.prompt.md`.

The file system is modelled as an association list from path to content.
Python character strings are Lean `String`s; Python string comparison
(used by `sorted`) is lexicographic comparison of the code-point lists.
-/

/-! ### Character-list helpers -/

/-- Boolean test that `pat` is a leading segment of the second list. -/
def isPrefixCL : List Char → List Char → Bool
  | [], _ => true
  | _ :: _, [] => false
  | a :: as, b :: bs => a == b && isPrefixCL as bs

/-- Boolean substring test: `pat` occurs contiguously in the second list.
Models the Python `in` operator on strings. -/
def containsCL (pat : List Char) : List Char → Bool
  | [] => isPrefixCL pat []
  | b :: bs => isPrefixCL pat (b :: bs) || containsCL pat bs

/-- Python `needle in hay` on strings. -/
def strContains (hay pat : String) : Bool :=
  containsCL pat.data hay.data

/-- ASCII lower-casing of one character, as `str.lower` acts on ASCII text. -/
def pyLowerChar (c : Char) : Char :=
  if 65 ≤ c.toNat && c.toNat ≤ 90 then Char.ofNat (c.toNat + 32) else c

/-- Python `s.lower()` (ASCII fragment). -/
def pyLower (s : String) : String := String.mk (s.data.map pyLowerChar)

/-- Python `str.strip()`: drop whitespace from both ends. -/
def pyStripCL (l : List Char) : List Char :=
  ((l.dropWhile Char.isWhitespace).reverse.dropWhile Char.isWhitespace).reverse

/-- Python `s.strip()`. -/
def pyStrip (s : String) : String := String.mk (pyStripCL s.data)

/-- Split a character list at newline characters (an accumulator holds the
current line, reversed). Models iterating over the lines of a file. -/
def splitNl (cur : List Char) : List Char → List (List Char)
  | [] => [cur.reverse]
  | c :: rest => if c = '\n' then cur.reverse :: splitNl [] rest else splitNl (c :: cur) rest

/-- The lines of a file's content. -/
def fileLines (content : String) : List String :=
  (splitNl [] content.data).map (fun l => String.mk l)

/-- `[line.strip() for line in f if line.strip()]` from `detect_project_context`. -/
def requirementLines (content : String) : List String :=
  ((fileLines content).map pyStrip).filter (fun l => !(l == ""))

/-! ### Timestamps and `strftime` -/

/-- The decimal digit character for `n` (used with `n < 10`). -/
def dc (n : Nat) : Char := Char.ofNat (48 + n)

/-- Two-digit zero-padded decimal rendering, as `%m`, `%d`, `%H`, `%M`, `%S`. -/
def pad2 (n : Nat) : List Char := [dc (n / 10 % 10), dc (n % 10)]

/-- Four-digit zero-padded decimal rendering, as `%Y` for years up to 9999. -/
def pad4 (n : Nat) : List Char := pad2 (n / 100) ++ pad2 (n % 100)

/-- A wall-clock time at second resolution, the input of `datetime.strftime`. -/
structure Timestamp where
  year : Nat
  month : Nat
  day : Nat
  hour : Nat
  minute : Nat
  second : Nat

/-- The component ranges guaranteed by Python's `datetime`. -/
def ValidTs (t : Timestamp) : Prop :=
  1 ≤ t.year ∧ t.year ≤ 9999 ∧ 1 ≤ t.month ∧ t.month ≤ 12 ∧ 1 ≤ t.day ∧ t.day ≤ 31
    ∧ t.hour ≤ 23 ∧ t.minute ≤ 59 ∧ t.second ≤ 59

instance (t : Timestamp) : Decidable (ValidTs t) := by
  unfold ValidTs; infer_instance

/-- Character list of `now.strftime("%Y%m%d_%H%M%S")`. -/
def strftimeChars (t : Timestamp) : List Char :=
  pad4 t.year ++ (pad2 t.month ++ (pad2 t.day ++
    ('_' :: (pad2 t.hour ++ (pad2 t.minute ++ pad2 t.second)))))

/-- `now.strftime("%Y%m%d_%H%M%S")`. -/
def strftimeYmdHms (t : Timestamp) : String := String.mk (strftimeChars t)

/-- Chronological sort key of a timestamp: its components read as one number. -/
def tsVal (t : Timestamp) : Nat :=
  ((((t.year * 100 + t.month) * 100 + t.day) * 100 + t.hour) * 100 + t.minute) * 100 + t.second

/-! ### File-system model -/

/-- Writing a file: overwrite any entry with the same path (Python `open(_, "w")`). -/
def writeFile (fs : List (String × String)) (p c : String) : List (String × String) :=
  (p, c) :: fs.filter (fun e => !(e.1 == p))

/-- Reading a file that may not exist. -/
def readFile (fs : List (String × String)) (p : String) : Option String :=
  (fs.find? (fun e => e.1 == p)).map (fun e => e.2)

/-- Reading a file known to exist (default is never reached on glob results). -/
def readFileD (fs : List (String × String)) (p : String) : String :=
  (readFile fs p).getD ""

/-! ### Python string order (used by `sorted`) -/

/-- Python string comparison: lexicographic on the code-point sequences. -/
def strDataLe (s t : String) : Prop := s.data ≤ t.data

instance : DecidableRel strDataLe :=
  fun s t => inferInstanceAs (Decidable (s.data ≤ t.data))

instance : IsTotal String strDataLe := ⟨fun a b => le_total a.data b.data⟩

instance : IsTrans String strDataLe := ⟨fun _ _ _ h h2 => le_trans h h2⟩

/-- Python `sorted` on strings: a stable sort by lexicographic order. -/
def pySorted (l : List String) : List String := List.insertionSort strDataLe l

/-! ### `generate_prs_log.py` -/

/-- A parsed YAML/JSON value, the possible results of loading a task file. -/
inductive PyData where
  | ofString (s : String)
  | ofDict (entries : List (String × PyData))
  | ofList (items : List PyData)
  | ofInt (n : Int)
  | ofBool (b : Bool)
  | null

/-- Python `"task" in task_data` for a mapping. -/
def hasKey (entries : List (String × PyData)) (k : String) : Bool :=
  entries.any (fun e => e.1 == k)

/-- Shapes accepted by `validate_task_data` (Python `str` or `dict`). -/
def isTaskShape : PyData → Bool
  | .ofString _ => true
  | .ofDict _ => true
  | _ => false

/-- `validate_task_data` from `generate_prs_log.py`: normalize a bare string,
pass through a mapping that has a `task` key, otherwise raise `ValueError`. -/
def validate_task_data : PyData → Except String PyData
  | .ofString s => .ok (.ofDict [("task", .ofString s)])
  | .ofDict entries =>
      if hasKey entries "task" then .ok (.ofDict entries)
      else .error "Task file must contain a \x27task\x27 field"
  | _ => .error "Invalid task file format"

/-- Parsed `package.json`: `package.get("name")` and `package.get("dependencies", {})`. -/
structure NodeManifest where
  name : Option String
  dependencies : Option (List (String × String))

/-- Parsed `pubspec.yaml`: `pubspec.get("name")` and `pubspec.get("dependencies", {})`. -/
structure FlutterManifest where
  name : Option String
  dependencies : Option (List (String × String))

/-- The working directory as seen by `detect_project_context`: which of the
three manifest files exist and their (already parsed) content. -/
structure ProjectDir where
  packageJson : Option NodeManifest
  pubspecYaml : Option FlutterManifest
  requirementsTxt : Option String

/-- How Python prints `x.get("name")` inside an f-string: `None` when absent. -/
def pyShowOptStr : Option String → String
  | some s => s
  | none => "None"

/-- Python `", ".join(l)`. -/
def joinComma (l : List String) : String := String.intercalate ", " l

/-- `detect_project_context` from `generate_prs_log.py`. -/
def detect_project_context (d : ProjectDir) : String :=
  let parts1 : List String :=
    match d.packageJson with
    | some pkg =>
        ["Detected Node.js project (package.json):",
         "  name: " ++ pyShowOptStr pkg.name,
         "  dependencies: " ++ joinComma ((pkg.dependencies.getD []).map (fun e => e.1))]
    | none => []
  let parts2 : List String :=
    match d.pubspecYaml with
    | some pub =>
        ["Detected Flutter project (pubspec.yaml):",
         "  name: " ++ pyShowOptStr pub.name,
         "  dependencies: " ++ joinComma ((pub.dependencies.getD []).map (fun e => e.1))]
    | none => []
  let parts3 : List String :=
    match d.requirementsTxt with
    | some content =>
        ["Detected Python project (requirements.txt):",
         "  dependencies: " ++ joinComma (requirementLines content)]
    | none => []
  let parts := parts1 ++ parts2 ++ parts3
  if parts = [] then "No known project structure detected."
  else String.intercalate "\n" parts

/-- The file name computed by `save_prs`. -/
def save_prs_filename (now : Timestamp) : String :=
  ".github/prompts/prs_" ++ strftimeYmdHms now ++ ".prompt.md"

/-- The file content written by `save_prs` (the f-string template). -/
def save_prs_content (task reasoning evaluation adaptation result : String) : String :=
  "# PRS Prompt - " ++ task
    ++ "\n\n## Task\n" ++ task
    ++ "\n\n## Reasoning\n" ++ reasoning
    ++ "\n\n## Evaluation\n" ++ evaluation
    ++ "\n\n## Adaptation\n" ++ adaptation
    ++ "\n\n## Final Output Summary\n" ++ result
    ++ "\n\n# [GOD MODE: ON]\n"

/-- `save_prs` from `generate_prs_log.py`: write the templated content to the
timestamped path under `.github/prompts/`. -/
def save_prs (fs : List (String × String)) (now : Timestamp)
    (task reasoning evaluation adaptation result : String) : List (String × String) :=
  writeFile fs (save_prs_filename now) (save_prs_content task reasoning evaluation adaptation result)

/-- The initial prompt built in `main`: project context, then the optional
`Additional context` and `Constraints` blocks, then the task text. -/
def build_context_prompt (project_context additional_context constraints task : String) : String :=
  let full0 := "Given the following project context:\n" ++ project_context
  let full1 :=
    if additional_context = "" then full0
    else full0 ++ ("\n\nAdditional context:\n" ++ additional_context)
  let full2 :=
    if constraints = "" then full1
    else full1 ++ ("\n\nConstraints:\n" ++ constraints)
  full2 ++ ("\n\nTask: " ++ task)

/-- Observable outcome of one pipeline run: the file system afterwards, the
sequence of assistant calls `(prompt, response)` that completed, and the
exception (if any) that ended the run. -/
structure RunResult where
  fs : List (String × String)
  calls : List (String × String)
  err : Option String

/-- The four-phase pipeline of `main` followed by `save_prs`, with the
assistant modelled as a fallible request/response function. An exception
propagates: later calls do not happen and nothing is written. -/
def mainRun (assistant : String → Except String String) (fs0 : List (String × String))
    (now : Timestamp) (task context_prompt : String) : RunResult :=
  match assistant context_prompt with
  | .error e => ⟨fs0, [], some e⟩
  | .ok reasoning =>
    match assistant ("Evaluate the reasoning: " ++ reasoning) with
    | .error e => ⟨fs0, [(context_prompt, reasoning)], some e⟩
    | .ok evaluation =>
      match assistant ("Refactor the approach based on: " ++ evaluation) with
      | .error e =>
          ⟨fs0, [(context_prompt, reasoning),
                 ("Evaluate the reasoning: " ++ reasoning, evaluation)], some e⟩
      | .ok adaptation =>
        match assistant (task ++ "\n\nImproved strategy:\n" ++ adaptation) with
        | .error e =>
            ⟨fs0, [(context_prompt, reasoning),
                   ("Evaluate the reasoning: " ++ reasoning, evaluation),
                   ("Refactor the approach based on: " ++ evaluation, adaptation)], some e⟩
        | .ok final =>
            ⟨save_prs fs0 now task reasoning evaluation adaptation final,
             [(context_prompt, reasoning),
              ("Evaluate the reasoning: " ++ reasoning, evaluation),
              ("Refactor the approach based on: " ++ evaluation, adaptation),
              (task ++ "\n\nImproved strategy:\n" ++ adaptation, final)], none⟩

/-! ### `prs_memory_cli.py` -/

/-- The glob pattern `.github/prompts/prs_*.prompt.md`: the fixed directory
and name shape around a `*` that matches any characters except `/`. -/
def matchesLogGlob (p : String) : Bool :=
  isPrefixCL ".github/prompts/prs_".data p.data
    && isPrefixCL ".prompt.md".data.reverse p.data.reverse
    && decide (30 ≤ p.data.length)
    && ((p.data.drop 20).take (p.data.length - 30)).all (fun c => decide (c ≠ '/'))

/-- `list_logs`: the files returned, `sorted(glob.glob(".github/prompts/prs_*.prompt.md"))`. -/
def list_logs_files (names : List String) : List String :=
  pySorted (names.filter matchesLogGlob)

/-- `list_logs`: the lines printed, one numbered line per file, 1-based. -/
def list_logs_printed (names : List String) : List String :=
  (list_logs_files names).enum.map (fun q => "[" ++ toString (q.1 + 1) ++ "] " ++ q.2)

/-- `view_log(index)`: re-list the logs (printing the listing), then print the
selected file's content when `0 <= index < len(files)`, else print an error. -/
def view_log (fs : List (String × String)) (index : Int) : List String :=
  let files := list_logs_files (fs.map (fun e => e.1))
  let listing := list_logs_printed (fs.map (fun e => e.1))
  if 0 ≤ index ∧ index < (files.length : Int) then
    listing ++ [readFileD fs (files.getD index.toNat "")]
  else
    listing ++ ["Invalid index."]

/-- `search_logs(keyword)`: the paths printed — glob matches whose content
contains the keyword case-insensitively, in file-system order. -/
def search_logs (fs : List (String × String)) (keyword : String) : List String :=
  ((fs.filter (fun e => matchesLogGlob e.1)).filter
    (fun e => strContains (pyLower e.2) (pyLower keyword))).map (fun e => e.1)

/-! ### Concrete directories used by the examples in the specification -/

/-- Log file name for 2024-01-01 00:00:00. -/
def demoName1 : String := ".github/prompts/prs_20240101_000000.prompt.md"

/-- Log file name for 2024-01-02 00:00:00. -/
def demoName2 : String := ".github/prompts/prs_20240102_000000.prompt.md"

/-- Log file name for 2024-01-03 00:00:00. -/
def demoName3 : String := ".github/prompts/prs_20240103_000000.prompt.md"

/-- A two-file log directory. -/
def demoFs2 : List (String × String) :=
  [(demoName1, "alpha content"), (demoName2, "beta content")]

/-- A three-file log directory in which exactly two files contain the
case-varied substring `Deploy`. -/
def demoSearchFs : List (String × String) :=
  [(demoName1, "We should Deploy on Friday"),
   (demoName2, "all quiet"),
   (demoName3, "DEPLOYment checklist")]

/-! ### Helper lemmas -/

theorem stringDataEq {s t : String} (h : s.data = t.data) : s = t := by
  cases s; cases t; exact congrArg String.mk h

theorem dataEmptyStr : ("" : String).data = [] := rfl

theorem isPrefixCL_iff (pat : List Char) : ∀ l : List Char,
    (isPrefixCL pat l = true ↔ ∃ v, l = pat ++ v) := by
  induction pat with
  | nil =>
      intro l
      simp [isPrefixCL]
  | cons a as ih =>
      intro l
      cases l with
      | nil => simp [isPrefixCL]
      | cons b bs =>
          simp only [isPrefixCL, Bool.and_eq_true, beq_iff_eq, ih, List.cons_append]
          constructor
          · rintro ⟨hab, v, hv⟩
            exact ⟨v, by simp [hab, hv]⟩
          · rintro ⟨v, hv⟩
            rw [List.cons.injEq] at hv
            exact ⟨hv.1.symm, v, hv.2⟩

theorem isPrefixCL_append_self : ∀ u v : List Char, isPrefixCL u (u ++ v) = true := by
  intro u v
  induction u with
  | nil => simp [isPrefixCL]
  | cons a as ih => simp [isPrefixCL, ih]

theorem containsCL_iff (pat : List Char) : ∀ l : List Char,
    (containsCL pat l = true ↔ ∃ u v, l = u ++ pat ++ v) := by
  intro l
  induction l with
  | nil =>
      simp only [containsCL, isPrefixCL_iff]
      constructor
      · rintro ⟨v, hv⟩
        exact ⟨[], v, by simpa using hv⟩
      · rintro ⟨u, v, huv⟩
        rw [List.append_assoc] at huv
        rcases List.append_eq_nil.mp huv.symm with ⟨hu, hrest⟩
        rcases List.append_eq_nil.mp hrest with ⟨hp, hv⟩
        exact ⟨[], by simp [hp]⟩
  | cons b bs ih =>
      simp only [containsCL, Bool.or_eq_true, isPrefixCL_iff, ih]
      constructor
      · rintro (⟨v, hv⟩ | ⟨u, v, huv⟩)
        · exact ⟨[], v, by simpa using hv⟩
        · exact ⟨b :: u, v, by simp [huv]⟩
      · rintro ⟨u, v, huv⟩
        cases u with
        | nil => exact Or.inl ⟨v, by simpa using huv⟩
        | cons a u =>
            simp only [List.cons_append, List.append_assoc, List.cons.injEq] at huv
            exact Or.inr ⟨u, v, by simp [huv.2]⟩

theorem readFile_writeFile (fs : List (String × String)) (p c : String) :
    readFile (writeFile fs p c) p = some c := by
  unfold readFile writeFile
  rw [List.find?_cons_of_pos _ (by simp)]
  rfl

theorem dc_lt_dc_iff : ∀ a, a < 10 → ∀ b, b < 10 → (dc a < dc b ↔ a < b) := by decide

theorem dc_isDigit : ∀ a, a < 10 → (dc a).isDigit = true := by decide

theorem dc_ne_slash : ∀ a, a < 10 → (decide (dc a ≠ '/') : Bool) = true := by decide

theorem pad2_length (n : Nat) : (pad2 n).length = 2 := rfl

theorem strftimeChars_length (t : Timestamp) : (strftimeChars t).length = 15 := by
  simp [strftimeChars, pad4, pad2]

theorem pad2_filter_isDigit (n : Nat) : (pad2 n).filter Char.isDigit = pad2 n := by
  have h1 := dc_isDigit (n / 10 % 10) (by omega)
  have h2 := dc_isDigit (n % 10) (by omega)
  simp [pad2, h1, h2]

theorem pad2_all_ne_slash (n : Nat) :
    (pad2 n).all (fun c => decide (c ≠ '/')) = true := by
  have h1 := dc_ne_slash (n / 10 % 10) (by omega)
  have h2 := dc_ne_slash (n % 10) (by omega)
  simp only [pad2, List.all_cons, List.all_nil, h1, h2, Bool.and_true]

theorem lex_append_same {r : Char → Char → Prop} :
    ∀ (w : List Char) {u v : List Char}, List.Lex r u v → List.Lex r (w ++ u) (w ++ v)
  | [], _, _, h => h
  | _ :: w, _, _, h => List.Lex.cons (lex_append_same w h)

theorem pad2_lex {a b : Nat} (hb : b < 100) (hab : a < b) (u v : List Char) :
    List.Lex (· < ·) (pad2 a ++ u) (pad2 b ++ v) := by
  have ha : a < 100 := Nat.lt_trans hab hb
  have hd : a / 10 ≤ b / 10 := Nat.div_le_div_right (Nat.le_of_lt hab)
  simp only [pad2, List.cons_append, List.nil_append]
  rcases Nat.lt_or_ge (a / 10) (b / 10) with h | h
  · exact List.Lex.rel ((dc_lt_dc_iff _ (by omega) _ (by omega)).mpr (by omega))
  · have h10 : a / 10 = b / 10 := Nat.le_antisymm hd h
    rw [h10]
    exact List.Lex.cons (List.Lex.rel ((dc_lt_dc_iff _ (by omega) _ (by omega)).mpr (by omega)))

theorem pad4_lex {a b : Nat} (hb : b < 10000) (hab : a < b) (u v : List Char) :
    List.Lex (· < ·) (pad4 a ++ u) (pad4 b ++ v) := by
  have hd : a / 100 ≤ b / 100 := Nat.div_le_div_right (Nat.le_of_lt hab)
  simp only [pad4, List.append_assoc]
  rcases Nat.lt_or_ge (a / 100) (b / 100) with h | h
  · exact pad2_lex (by omega) h _ _
  · have h100 : a / 100 = b / 100 := Nat.le_antisymm hd h
    rw [h100]
    exact lex_append_same _ (pad2_lex (by omega) (by omega) _ _)

theorem save_prs_filename_data (t : Timestamp) :
    (save_prs_filename t).data
      = ".github/prompts/prs_".data ++ (strftimeChars t ++ ".prompt.md".data) := by
  simp [save_prs_filename, strftimeYmdHms, List.append_assoc]

theorem fname_lex {t1 t2 : Timestamp} (v1 : ValidTs t1) (v2 : ValidTs t2)
    (h : tsVal t1 < tsVal t2) :
    List.Lex (· < ·) (save_prs_filename t1).data (save_prs_filename t2).data := by
  obtain ⟨hy1a, hy1b, hmo1a, hmo1b, hd1a, hd1b, hh1, hmi1, hs1⟩ := v1
  obtain ⟨hy2a, hy2b, hmo2a, hmo2b, hd2a, hd2b, hh2, hmi2, hs2⟩ := v2
  rw [save_prs_filename_data, save_prs_filename_data]
  apply lex_append_same
  simp only [strftimeChars, List.append_assoc, List.cons_append]
  have hcomp : t1.year < t2.year ∨ (t1.year = t2.year ∧
      (t1.month < t2.month ∨ (t1.month = t2.month ∧
        (t1.day < t2.day ∨ (t1.day = t2.day ∧
          (t1.hour < t2.hour ∨ (t1.hour = t2.hour ∧
            (t1.minute < t2.minute ∨ (t1.minute = t2.minute ∧
              t1.second < t2.second))))))))) := by
    unfold tsVal at h
    omega
  rcases hcomp with hy | ⟨hy, hrest⟩
  · exact pad4_lex (by omega) hy _ _
  rw [hy]
  apply lex_append_same
  rcases hrest with hmo | ⟨hmo, hrest⟩
  · exact pad2_lex (by omega) hmo _ _
  rw [hmo]
  apply lex_append_same
  rcases hrest with hd | ⟨hd, hrest⟩
  · exact pad2_lex (by omega) hd _ _
  rw [hd]
  apply lex_append_same
  apply List.Lex.cons
  rcases hrest with hh | ⟨hh, hrest⟩
  · exact pad2_lex (by omega) hh _ _
  rw [hh]
  apply lex_append_same
  rcases hrest with hmi | ⟨hmi, hs⟩
  · exact pad2_lex (by omega) hmi _ _
  rw [hmi]
  apply lex_append_same
  exact pad2_lex (by omega) hs _ _

theorem fname_eq_of_tsVal_eq {t1 t2 : Timestamp} (v1 : ValidTs t1) (v2 : ValidTs t2)
    (h : tsVal t1 = tsVal t2) : save_prs_filename t1 = save_prs_filename t2 := by
  obtain ⟨hy1a, hy1b, hmo1a, hmo1b, hd1a, hd1b, hh1, hmi1, hs1⟩ := v1
  obtain ⟨hy2a, hy2b, hmo2a, hmo2b, hd2a, hd2b, hh2, hmi2, hs2⟩ := v2
  unfold tsVal at h
  have hy : t1.year = t2.year := by omega
  have hmo : t1.month = t2.month := by omega
  have hd : t1.day = t2.day := by omega
  have hh : t1.hour = t2.hour := by omega
  have hmi : t1.minute = t2.minute := by omega
  have hs : t1.second = t2.second := by omega
  unfold save_prs_filename strftimeYmdHms strftimeChars
  rw [hy, hmo, hd, hh, hmi, hs]

theorem fname_le_iff {t1 t2 : Timestamp} (v1 : ValidTs t1) (v2 : ValidTs t2) :
    (strDataLe (save_prs_filename t1) (save_prs_filename t2) ↔ tsVal t1 ≤ tsVal t2) := by
  constructor
  · intro h
    by_contra hn
    have h21 : tsVal t2 < tsVal t1 := Nat.lt_of_not_le hn
    have hlt : (save_prs_filename t2).data < (save_prs_filename t1).data :=
      fname_lex v2 v1 h21
    exact absurd hlt (not_lt.mpr h)
  · intro h
    rcases Nat.lt_or_ge (tsVal t1) (tsVal t2) with hlt | hge
    · exact le_of_lt
        (show (save_prs_filename t1).data < (save_prs_filename t2).data from
          fname_lex v1 v2 hlt)
    · have heq := fname_eq_of_tsVal_eq v1 v2 (Nat.le_antisymm h hge)
      exact le_of_eq (congrArg String.data heq)

theorem dc_ne_slash_prop : ∀ a, a < 10 → dc a ≠ '/' := by decide

theorem pad2_mem_ne_slash (n : Nat) : ∀ x ∈ pad2 n, ¬ x = '/' := by
  intro x hx
  simp only [pad2, List.mem_cons, List.not_mem_nil, or_false] at hx
  rcases hx with h | h <;> subst h
  · exact dc_ne_slash_prop _ (by omega)
  · exact dc_ne_slash_prop _ (by omega)

theorem strftimeChars_all_ne_slash (t : Timestamp) :
    (strftimeChars t).all (fun c => decide (c ≠ '/')) = true := by
  simp [strftimeChars, pad4, List.all_append]
  exact ⟨pad2_mem_ne_slash _, pad2_mem_ne_slash _, pad2_mem_ne_slash _,
    pad2_mem_ne_slash _, pad2_mem_ne_slash _, pad2_mem_ne_slash _, pad2_mem_ne_slash _⟩

theorem fname_glob (t : Timestamp) : matchesLogGlob (save_prs_filename t) = true := by
  have hdata := save_prs_filename_data t
  unfold matchesLogGlob
  rw [hdata]
  have hp : (".github/prompts/prs_".data).length = 20 := rfl
  have hsuf : (".prompt.md".data).length = 10 := rfl
  have hlen : (".github/prompts/prs_".data
      ++ (strftimeChars t ++ ".prompt.md".data)).length = 45 := by
    simp [List.length_append, hp, hsuf, strftimeChars_length]
  simp only [Bool.and_eq_true]
  refine ⟨⟨⟨isPrefixCL_append_self _ _, ?_⟩, ?_⟩, ?_⟩
  · simp only [List.reverse_append, List.append_assoc]
    exact isPrefixCL_append_self _ _
  · rw [hlen]
    rfl
  · rw [hlen]
    have hdrop : (".github/prompts/prs_".data
        ++ (strftimeChars t ++ ".prompt.md".data)).drop 20
          = strftimeChars t ++ ".prompt.md".data := by
      rw [show (20 : Nat) = (".github/prompts/prs_".data).length from rfl]
      exact List.drop_left _ _
    rw [hdrop]
    rw [show (45 - 30 : Nat) = (strftimeChars t).length from (strftimeChars_length t).symm]
    rw [List.take_left]
    exact strftimeChars_all_ne_slash t

/-! ### The claims -/

/-- Claim C1: for every task text and every assistant response function, the
pipeline performs exactly four sequential assistant calls in order; call 1
receives the initial prompt, call 2 receives `"Evaluate the reasoning: "`
followed by call 1's raw output, call 3 receives
`"Refactor the approach based on: "` followed by call 2's raw output, and
call 4 receives the task text, a fixed separator, and call 3's raw output;
each recorded output is the assistant's raw response to that exact prompt. -/
theorem claim_pipeline_four_sequential_calls
    (assistantFn : String → String) (fs : List (String × String)) (now : Timestamp)
    (task context_prompt : String) :
    ∃ o1 o2 o3 o4,
      (mainRun (fun q => Except.ok (assistantFn q)) fs now task context_prompt).calls
        = [(context_prompt, o1),
           ("Evaluate the reasoning: " ++ o1, o2),
           ("Refactor the approach based on: " ++ o2, o3),
           (task ++ "\n\nImproved strategy:\n" ++ o3, o4)]
      ∧ o1 = assistantFn context_prompt
      ∧ o2 = assistantFn ("Evaluate the reasoning: " ++ o1)
      ∧ o3 = assistantFn ("Refactor the approach based on: " ++ o2)
      ∧ o4 = assistantFn (task ++ "\n\nImproved strategy:\n" ++ o3)
      ∧ (mainRun (fun q => Except.ok (assistantFn q)) fs now task context_prompt).calls.length
          = 4 :=
  ⟨_, _, _, _, rfl, rfl, rfl, rfl, rfl, rfl⟩

/-- Claim C3: `validate_task_data` normalizes a bare string to a mapping with
a `task` key, passes through a mapping already containing `task`, rejects a
mapping without `task` with the exact message
`Task file must contain a 'task' field`, and rejects every other shape with
the exact message `Invalid task file format`. -/
theorem claim_validate_task_data
    (s : String) (entries : List (String × PyData)) (v : PyData) :
    validate_task_data (.ofString s) = .ok (.ofDict [("task", .ofString s)])
    ∧ (hasKey entries "task" = true →
        validate_task_data (.ofDict entries) = .ok (.ofDict entries))
    ∧ (hasKey entries "task" = false →
        validate_task_data (.ofDict entries)
          = .error "Task file must contain a \x27task\x27 field")
    ∧ (isTaskShape v = false → validate_task_data v = .error "Invalid task file format") := by
  refine ⟨rfl, fun h => ?_, fun h => ?_, fun h => ?_⟩
  · simp [validate_task_data, h]
  · simp [validate_task_data, h]
  · cases v <;> simp_all [validate_task_data, isTaskShape]

/-- Witness for C3 at concrete inputs: a mapping with a `task` key passes
through, a mapping without it and a non-mapping fail with the exact messages. -/
theorem claim_validate_task_data_witness :
    validate_task_data (.ofDict [("task", .null)]) = .ok (.ofDict [("task", .null)])
    ∧ validate_task_data (.ofDict [("other", .null)])
        = .error "Task file must contain a \x27task\x27 field"
    ∧ validate_task_data (.ofInt 3) = .error "Invalid task file format" :=
  ⟨(claim_validate_task_data "" [("task", .null)] (.ofInt 3)).2.1 (by decide),
   (claim_validate_task_data "" [("other", .null)] (.ofInt 3)).2.2.1 (by decide),
   (claim_validate_task_data "" [] (.ofInt 3)).2.2.2 (by decide)⟩

/-- Claim C7: if any of the four assistant calls fails, the run writes no log
entry: the file system is returned unchanged. `save_prs` runs only after all
four calls succeed, and then the new file system is exactly the old one with
the one log written. -/
theorem claim_failed_run_writes_no_log
    (assistant : String → Except String String) (fs : List (String × String))
    (now : Timestamp) (task context_prompt : String) :
    ((mainRun assistant fs now task context_prompt).err.isSome = true →
      (mainRun assistant fs now task context_prompt).fs = fs)
    ∧ ((mainRun assistant fs now task context_prompt).err = none →
      ∃ reasoning evaluation adaptation final,
        assistant context_prompt = .ok reasoning
        ∧ assistant ("Evaluate the reasoning: " ++ reasoning) = .ok evaluation
        ∧ assistant ("Refactor the approach based on: " ++ evaluation) = .ok adaptation
        ∧ assistant (task ++ "\n\nImproved strategy:\n" ++ adaptation) = .ok final
        ∧ (mainRun assistant fs now task context_prompt).fs
            = save_prs fs now task reasoning evaluation adaptation final) := by
  cases h1 : assistant context_prompt with
  | error e =>
      exact ⟨fun _ => by simp [mainRun, h1], fun hn => by simp [mainRun, h1] at hn⟩
  | ok reasoning =>
  cases h2 : assistant ("Evaluate the reasoning: " ++ reasoning) with
  | error e =>
      exact ⟨fun _ => by simp [mainRun, h1, h2], fun hn => by simp [mainRun, h1, h2] at hn⟩
  | ok evaluation =>
  cases h3 : assistant ("Refactor the approach based on: " ++ evaluation) with
  | error e =>
      exact ⟨fun _ => by simp [mainRun, h1, h2, h3],
             fun hn => by simp [mainRun, h1, h2, h3] at hn⟩
  | ok adaptation =>
  cases h4 : assistant (task ++ "\n\nImproved strategy:\n" ++ adaptation) with
  | error e =>
      exact ⟨fun _ => by simp [mainRun, h1, h2, h3, h4],
             fun hn => by simp [mainRun, h1, h2, h3, h4] at hn⟩
  | ok final =>
      refine ⟨fun hs => ?_, fun _ => ?_⟩
      · simp [mainRun, h1, h2, h3, h4] at hs
      · exact ⟨reasoning, evaluation, adaptation, final, rfl, h2, h3, h4,
          by simp [mainRun, h1, h2, h3, h4]⟩

/-- Witness for C7: a run whose very first assistant call fails leaves the
(empty) log directory unchanged. -/
theorem claim_failed_run_writes_no_log_witness :
    (mainRun (fun _ => Except.error "boom") [] ⟨2024, 1, 1, 0, 0, 0⟩ "t" "c").fs = [] :=
  (claim_failed_run_writes_no_log (fun _ => Except.error "boom") []
    ⟨2024, 1, 1, 0, 0, 0⟩ "t" "c").1 rfl

/-- Claim C8: `detect_project_context` on a directory with none of the three
manifests returns exactly the fixed sentence; on a directory whose
`package.json` has name `x` and dependencies `a`, `b` (and no other
manifests) it returns text containing `Detected Node.js project`, the
project name `x`, and the comma-joined dependency names `a, b`. -/
theorem claim_detect_project_context :
    detect_project_context ⟨none, none, none⟩ = "No known project structure detected."
    ∧ strContains
        (detect_project_context
          ⟨some ⟨some "x", some [("a", "1"), ("b", "2")]⟩, none, none⟩)
        "Detected Node.js project" = true
    ∧ strContains
        (detect_project_context
          ⟨some ⟨some "x", some [("a", "1"), ("b", "2")]⟩, none, none⟩)
        "name: x" = true
    ∧ strContains
        (detect_project_context
          ⟨some ⟨some "x", some [("a", "1"), ("b", "2")]⟩, none, none⟩)
        "dependencies: a, b" = true
    ∧ strContains
        (detect_project_context
          ⟨some ⟨some "x", some [("a", "1"), ("b", "2")]⟩, none, none⟩)
        "a, b" = true := by
  refine ⟨rfl, ?_, ?_, ?_, ?_⟩ <;> decide

/-- Claim C9: the initial pipeline prompt is the project context (under its
fixed banner), then the `Additional context` block exactly when the task's
context is non-empty, then the `Constraints` block exactly when the task's
constraints are non-empty, and finally the literal task text. -/
theorem claim_initial_prompt_blocks (pc ac cs task : String) :
    build_context_prompt pc ac cs task
      = "Given the following project context:\n" ++ pc
        ++ (if ac = "" then "" else "\n\nAdditional context:\n" ++ ac)
        ++ (if cs = "" then "" else "\n\nConstraints:\n" ++ cs)
        ++ "\n\nTask: " ++ task := by
  rcases eq_or_ne ac "" with h1 | h1 <;> rcases eq_or_ne cs "" with h2 | h2 <;>
    simp only [build_context_prompt, h1, h2, if_pos, if_neg, ite_true, ite_false,
      reduceIte, ne_eq, not_false_eq_true] <;>
    (apply stringDataEq; simp [List.append_assoc, dataEmptyStr])

/-- Claim C2: `save_prs` writes to a file named
`prs_<14-digit-timestamp>.prompt.md` (the 15-character `YYYYMMDD_HHMMSS`
stamp has 14 digit characters), its content carries all five input strings
verbatim, each directly under its labeled section heading, ends with the
fixed trailing marker line, and re-reading the written file returns the
content byte-for-byte. -/
theorem claim_save_prs_roundtrip
    (fs : List (String × String)) (t : Timestamp)
    (task reasoning evaluation adaptation result : String) :
    (save_prs_filename t).data
        = ".github/prompts/prs_".data ++ ((strftimeYmdHms t).data ++ ".prompt.md".data)
    ∧ (strftimeYmdHms t).length = 15
    ∧ ((strftimeYmdHms t).data.filter Char.isDigit).length = 14
    ∧ (∃ u v, save_prs_content task reasoning evaluation adaptation result
        = u ++ ("\n\n## Task\n" ++ task) ++ v)
    ∧ (∃ u v, save_prs_content task reasoning evaluation adaptation result
        = u ++ ("\n\n## Reasoning\n" ++ reasoning) ++ v)
    ∧ (∃ u v, save_prs_content task reasoning evaluation adaptation result
        = u ++ ("\n\n## Evaluation\n" ++ evaluation) ++ v)
    ∧ (∃ u v, save_prs_content task reasoning evaluation adaptation result
        = u ++ ("\n\n## Adaptation\n" ++ adaptation) ++ v)
    ∧ (∃ u v, save_prs_content task reasoning evaluation adaptation result
        = u ++ ("\n\n## Final Output Summary\n" ++ result) ++ v)
    ∧ (∃ u, save_prs_content task reasoning evaluation adaptation result
        = u ++ "\n\n# [GOD MODE: ON]\n")
    ∧ readFile (save_prs fs t task reasoning evaluation adaptation result)
        (save_prs_filename t)
        = some (save_prs_content task reasoning evaluation adaptation result) := by
  refine ⟨?_, ?_, ?_, ?_, ?_, ?_, ?_, ?_, ?_, ?_⟩
  · simp [save_prs_filename, List.append_assoc]
  · exact strftimeChars_length t
  · show ((strftimeChars t).filter Char.isDigit).length = 14
    have hu : Char.isDigit '_' = false := rfl
    simp [strftimeChars, pad4, List.filter_append, pad2_filter_isDigit, hu, pad2_length]
  · refine ⟨"# PRS Prompt - " ++ task,
      "\n\n## Reasoning\n" ++ reasoning ++ "\n\n## Evaluation\n" ++ evaluation
        ++ "\n\n## Adaptation\n" ++ adaptation ++ "\n\n## Final Output Summary\n" ++ result
        ++ "\n\n# [GOD MODE: ON]\n", ?_⟩
    apply stringDataEq
    simp [save_prs_content, List.append_assoc]
  · refine ⟨"# PRS Prompt - " ++ task ++ "\n\n## Task\n" ++ task,
      "\n\n## Evaluation\n" ++ evaluation ++ "\n\n## Adaptation\n" ++ adaptation
        ++ "\n\n## Final Output Summary\n" ++ result ++ "\n\n# [GOD MODE: ON]\n", ?_⟩
    apply stringDataEq
    simp [save_prs_content, List.append_assoc]
  · refine ⟨"# PRS Prompt - " ++ task ++ "\n\n## Task\n" ++ task
        ++ "\n\n## Reasoning\n" ++ reasoning,
      "\n\n## Adaptation\n" ++ adaptation ++ "\n\n## Final Output Summary\n" ++ result
        ++ "\n\n# [GOD MODE: ON]\n", ?_⟩
    apply stringDataEq
    simp [save_prs_content, List.append_assoc]
  · refine ⟨"# PRS Prompt - " ++ task ++ "\n\n## Task\n" ++ task
        ++ "\n\n## Reasoning\n" ++ reasoning ++ "\n\n## Evaluation\n" ++ evaluation,
      "\n\n## Final Output Summary\n" ++ result ++ "\n\n# [GOD MODE: ON]\n", ?_⟩
    apply stringDataEq
    simp [save_prs_content, List.append_assoc]
  · refine ⟨"# PRS Prompt - " ++ task ++ "\n\n## Task\n" ++ task
        ++ "\n\n## Reasoning\n" ++ reasoning ++ "\n\n## Evaluation\n" ++ evaluation
        ++ "\n\n## Adaptation\n" ++ adaptation,
      "\n\n# [GOD MODE: ON]\n", ?_⟩
    apply stringDataEq
    simp [save_prs_content, List.append_assoc]
  · refine ⟨"# PRS Prompt - " ++ task ++ "\n\n## Task\n" ++ task
        ++ "\n\n## Reasoning\n" ++ reasoning ++ "\n\n## Evaluation\n" ++ evaluation
        ++ "\n\n## Adaptation\n" ++ adaptation
        ++ "\n\n## Final Output Summary\n" ++ result, ?_⟩
    apply stringDataEq
    simp [save_prs_content, List.append_assoc]
  · exact readFile_writeFile fs (save_prs_filename t)
      (save_prs_content task reasoning evaluation adaptation result)

/-- Claim C4: `list_logs` returns the matching paths sorted lexicographically;
for valid timestamps, the lexicographic order of the writer's filenames
coincides with chronological order at second resolution; on the concrete
two-file directory from the specification the files come back in
chronological order, numbered from 1. -/
theorem claim_list_logs_sorted_chronological
    (names : List String) (t1 t2 : Timestamp) (v1 : ValidTs t1) (v2 : ValidTs t2) :
    List.Sorted strDataLe (list_logs_files names)
    ∧ (strDataLe (save_prs_filename t1) (save_prs_filename t2) ↔ tsVal t1 ≤ tsVal t2)
    ∧ list_logs_files [demoName1, demoName2] = [demoName1, demoName2]
    ∧ list_logs_files [demoName2, demoName1] = [demoName1, demoName2]
    ∧ list_logs_printed [demoName2, demoName1]
        = ["[1] " ++ demoName1, "[2] " ++ demoName2] := by
  refine ⟨?_, fname_le_iff v1 v2, by decide, by decide, by decide⟩
  exact List.sorted_insertionSort strDataLe _

/-- Witness for C4: at the two concrete timestamps behind the specification's
example files, filename order coincides with chronological order. -/
theorem claim_list_logs_sorted_chronological_witness :
    strDataLe (save_prs_filename ⟨2024, 1, 1, 0, 0, 0⟩) (save_prs_filename ⟨2024, 1, 2, 0, 0, 0⟩)
      ↔ tsVal ⟨2024, 1, 1, 0, 0, 0⟩ ≤ tsVal ⟨2024, 1, 2, 0, 0, 0⟩ :=
  (claim_list_logs_sorted_chronological [] ⟨2024, 1, 1, 0, 0, 0⟩ ⟨2024, 1, 2, 0, 0, 0⟩
    (by decide) (by decide)).2.1

/-- Claim C5: `search_logs` prints exactly the paths of the glob-matching
files whose full content contains the keyword as a case-insensitive
substring; on the specification's example, keyword `deploy` selects exactly
the two files containing the case-varied substring `Deploy`. -/
theorem claim_search_logs_exact_matches :
    (∀ (kw : String) (fs : List (String × String)) (p : String),
      p ∈ search_logs fs kw ↔
        ∃ c, (p, c) ∈ fs ∧ matchesLogGlob p = true
          ∧ ∃ u v, (pyLower c).data = u ++ (pyLower kw).data ++ v)
    ∧ search_logs demoSearchFs "deploy" = [demoName1, demoName3] := by
  constructor
  · intro kw fs p
    unfold search_logs
    simp only [List.mem_map, List.mem_filter]
    constructor
    · rintro ⟨⟨q, c⟩, ⟨⟨hin, hglob⟩, hcon⟩, hq⟩
      obtain rfl : q = p := hq
      exact ⟨c, hin, hglob, (containsCL_iff _ _).mp hcon⟩
    · rintro ⟨c, hin, hglob, u, v, huv⟩
      exact ⟨(p, c), ⟨⟨hin, hglob⟩, (containsCL_iff _ _).mpr ⟨u, v, huv⟩⟩, rfl⟩
  · decide

/-- Counterexample to C6 as stated: on a two-file directory, `view_log 5`
does not print only an error message — it first re-prints the listing
(through its internal `list_logs` call) and then the error message. -/
theorem claim_view_log_counterexample :
    view_log demoFs2 5 ≠ ["Invalid index."]
    ∧ view_log demoFs2 5
        = ["[1] " ++ demoName1, "[2] " ++ demoName2, "Invalid index."] := by
  exact ⟨by decide, by decide⟩

/-- Claim C6 as amended: `view_log` always prints the listing produced by its
internal `list_logs` call; with an in-range index it then prints the full
content of the selected file (index 0 selects the first file), and with an
out-of-range index it then prints the error message and performs no other
action; it raises no exception in either case. -/
theorem claim_view_log_amended (fs : List (String × String)) (index : Int) :
    (0 ≤ index → index < ((list_logs_files (fs.map (fun e => e.1))).length : Int) →
      view_log fs index
        = list_logs_printed (fs.map (fun e => e.1))
          ++ [readFileD fs ((list_logs_files (fs.map (fun e => e.1))).getD index.toNat "")])
    ∧ (0 < (list_logs_files (fs.map (fun e => e.1))).length →
      view_log fs 0
        = list_logs_printed (fs.map (fun e => e.1))
          ++ [readFileD fs ((list_logs_files (fs.map (fun e => e.1))).getD 0 "")])
    ∧ (¬ (0 ≤ index ∧ index < ((list_logs_files (fs.map (fun e => e.1))).length : Int)) →
      view_log fs index = list_logs_printed (fs.map (fun e => e.1)) ++ ["Invalid index."]) := by
  refine ⟨fun h1 h2 => ?_, fun h => ?_, fun h => ?_⟩
  · simp only [view_log]
    rw [if_pos ⟨h1, h2⟩]
  · simp only [view_log]
    rw [if_pos ⟨le_refl (0 : Int), by exact_mod_cast h⟩]
    rfl
  · simp only [view_log]
    rw [if_neg h]

/-- Witness for C6 (amended) on the concrete two-file directory: index 0
shows the first file after the listing; index 5 is out of range and yields
the listing followed by the error message. -/
theorem claim_view_log_amended_witness :
    view_log demoFs2 0
      = list_logs_printed (demoFs2.map (fun e => e.1))
        ++ [readFileD demoFs2 ((list_logs_files (demoFs2.map (fun e => e.1))).getD 0 "")]
    ∧ view_log demoFs2 5
      = list_logs_printed (demoFs2.map (fun e => e.1)) ++ ["Invalid index."] :=
  ⟨(claim_view_log_amended demoFs2 0).2.1 (by decide),
   (claim_view_log_amended demoFs2 5).2.2 (by decide)⟩

/-- Claim C10: the writer's path matches the readers' glob pattern for every
timestamp; a saved log is therefore enumerated by `list_logs`, found by
`search_logs` whenever its content matches the keyword, and readable at its
listed path — with no configuration anywhere. -/
theorem claim_writer_reader_glob_agreement
    (fs : List (String × String)) (t : Timestamp) (content kw : String)
    (hk : strContains (pyLower content) (pyLower kw) = true) :
    matchesLogGlob (save_prs_filename t) = true
    ∧ save_prs_filename t
        ∈ list_logs_files ((writeFile fs (save_prs_filename t) content).map (fun e => e.1))
    ∧ save_prs_filename t ∈ search_logs (writeFile fs (save_prs_filename t) content) kw
    ∧ readFileD (writeFile fs (save_prs_filename t) content) (save_prs_filename t)
        = content := by
  have hg := fname_glob t
  refine ⟨hg, ?_, ?_, ?_⟩
  · unfold list_logs_files pySorted
    rw [(List.perm_insertionSort strDataLe _).mem_iff]
    simp [writeFile, List.filter_cons, hg]
  · unfold search_logs
    simp [writeFile, List.filter_cons, hg, hk]
  · unfold readFileD
    rw [readFile_writeFile]
    rfl

/-- Witness for C10: a concretely saved log is glob-matched and found by a
search with the empty keyword. -/
theorem claim_writer_reader_glob_agreement_witness :
    matchesLogGlob (save_prs_filename ⟨2024, 1, 1, 0, 0, 0⟩) = true
    ∧ save_prs_filename ⟨2024, 1, 1, 0, 0, 0⟩
        ∈ search_logs (writeFile [] (save_prs_filename ⟨2024, 1, 1, 0, 0, 0⟩) "alpha") "" :=
  ⟨(claim_writer_reader_glob_agreement [] ⟨2024, 1, 1, 0, 0, 0⟩ "alpha" "" (by decide)).1,
   (claim_writer_reader_glob_agreement [] ⟨2024, 1, 1, 0, 0, 0⟩ "alpha" "" (by decide)).2.2.1⟩
